import Mathlib

/-!
# Verification of the Station Response Manager NRL index core

Shallow embedding of `src/SRM_core/nrl_index.py` (signature hashing, index
lookup, instrument detection and gain-ratio disambiguation).

Modelling conventions:
* Python floats are modelled as exact rationals (`ℚ`); Python's `round`
  (banker's rounding to `n` decimal places, `n` possibly negative) is modelled
  by `pyRound` over `ℚ`.
* `hashlib.sha256` is modelled injectively: a hasher is the concatenation of
  all byte strings fed to it, and `hexdigest()` returns that concatenation.
  Two signatures are equal exactly when the fed data is equal, which is the
  (collision-free) reading the spec relies on.
* Number formatting inside f-strings is modelled by `toString : ℚ → String`,
  which, like Python's float `repr`, is injective; the separator characters
  `:`, `=`, `,` never occur inside a formatted number.
* obspy stage objects are modelled by the `Stage` structure below; `hasattr`
  probing for an optional attribute is modelled by an `Option` field (an
  absent list attribute by `[]`), and Python truthiness of a numeric value is
  an explicit `≠ 0` test.
* The index dictionaries are association lists (`dictLookup` models both
  `sig in d` and `d[sig]`); Python dicts preserve insertion order, as
  association lists do.
-/

namespace SRM

set_option maxRecDepth 100000

/-- Floor of a rational, computed directly on the numerator/denominator. -/
def ratFloor (x : ℚ) : ℤ := Int.fdiv x.num x.den

/-- Round-half-to-even of a rational to an integer (the rounding mode of
Python's builtin `round`). -/
def roundHalfEven (x : ℚ) : ℤ :=
  let f := ratFloor x
  let r := x - (f : ℚ)
  if r < 1/2 then f
  else if 1/2 < r then f + 1
  else if f % 2 = 0 then f else f + 1

/-- `10 ^ n` for an integer exponent, as a rational. -/
def zpow10 (n : ℤ) : ℚ :=
  if 0 ≤ n then ((10 ^ n.toNat : ℕ) : ℚ) else 1 / ((10 ^ (-n).toNat : ℕ) : ℚ)

/-- Python's `round(x, ndigits)`: round-half-even to `n` decimal places
(`n` may be negative). -/
def pyRound (x : ℚ) (n : ℤ) : ℚ :=
  (roundHalfEven (x * zpow10 n) : ℚ) / zpow10 n

/-- Fuel-driven base-10 logarithm on naturals (`⌊log10 n⌋` for `n ≥ 1`);
the fuel argument makes the recursion structural. -/
def natLog10Aux : ℕ → ℕ → ℕ
  | 0, _ => 0
  | fuel + 1, n => if n < 10 then 0 else natLog10Aux fuel (n / 10) + 1

/-- `⌊log10 n⌋` for `n ≥ 1` (0 for `n = 0`). -/
def natLog10 (n : ℕ) : ℕ := natLog10Aux n n

/-- `int(floor(log10 x))` for a positive rational `x` (source uses
`math.log10`/`math.floor`; only ever called on nonzero absolute values). -/
def floorLog10 (x : ℚ) : ℤ :=
  if 1 ≤ x then (natLog10 (ratFloor x).toNat : ℤ)
  else if 0 < x then
    let k := natLog10 (ratFloor (1 / x)).toNat
    if x = zpow10 (-(k : ℤ)) then -(k : ℤ) else -(k : ℤ) - 1
  else 0

/-- `HASH_SIG_FIGS` from the source. -/
def HASH_SIG_FIGS : ℤ := 5

/-- `round_to_sig_figs(x, sig)` from the source:
`round(x, sig - int(floor(log10(abs(x)))) - 1)`, with `0 ↦ 0.0`. -/
def round_to_sig_figs (x : ℚ) (sig : ℤ := HASH_SIG_FIGS) : ℚ :=
  if x = 0 then 0 else pyRound x (sig - floorLog10 |x| - 1)

/-- The obspy response-stage class names probed via `type(stage).__name__`. -/
inductive StageType
  | ResponseStage
  | PolesZerosResponseStage
  | CoefficientsTypeResponseStage
  | FIRResponseStage
  | PolynomialResponseStage
  | ResponseListResponseStage
deriving DecidableEq, Repr

/-- The `__name__` string of the stage class. -/
def StageType.name : StageType → String
  | .ResponseStage => "ResponseStage"
  | .PolesZerosResponseStage => "PolesZerosResponseStage"
  | .CoefficientsTypeResponseStage => "CoefficientsTypeResponseStage"
  | .FIRResponseStage => "FIRResponseStage"
  | .PolynomialResponseStage => "PolynomialResponseStage"
  | .ResponseListResponseStage => "ResponseListResponseStage"

/-- `'PolesZeros' in type(stage).__name__`. -/
def StageType.isPZ : StageType → Bool
  | .PolesZerosResponseStage => true
  | _ => false

/-- `'FIR' in type(stage).__name__ or 'Coefficients' in type(stage).__name__`. -/
def StageType.isFIRCoeff : StageType → Bool
  | .FIRResponseStage => true
  | .CoefficientsTypeResponseStage => true
  | _ => false

/-- A response stage as consumed by the core (the narrow read-only interface
of §6 of the spec).  Complex poles/zeros are (real, imaginary) pairs. -/
structure Stage where
  typeName : StageType := .ResponseStage
  stage_gain : Option ℚ := none
  decimation_factor : Option ℤ := none
  input_units : Option String := none
  output_units : Option String := none
  pz_transfer_function_type : String := ""
  poles : List (ℚ × ℚ) := []
  zeros : List (ℚ × ℚ) := []
  symmetry : Option String := none
  numerator : List ℚ := []
  coefficients : List ℚ := []
deriving DecidableEq, Repr

/-- Python truthiness of an optional numeric attribute
(`hasattr(s, a) and s.a`): present and nonzero. -/
def truthyQ : Option ℚ → Bool
  | some g => g != 0
  | none => false

/-- The gain contribution of `_hash_stage` (source lines 576-579):
`some (round(gain, 2))` when the gain is present and truthy, else nothing. -/
def gainToken : Option ℚ → Option ℚ
  | some g => if g ≠ 0 then some (pyRound g 2) else none
  | none => none

/-- The `:dec=` contribution shared by `_hash_stage` and the datalogger
signatures: emitted only when `decimation_factor` is present and truthy. -/
def decToken : Option ℤ → String
  | some d => if d ≠ 0 then ":dec=" ++ toString d else ""
  | none => ""

/-- The `:sym=` contribution of `_hash_stage`: emitted when `symmetry` is
present and truthy (a nonempty string). -/
def symToken : Option String → String
  | some s => if s ≠ "" then ":sym=" ++ s else ""
  | none => ""

/-- Lexicographic order on (real, imag) pairs — Python tuple comparison,
used as the sort key in `_hash_stage` after rounding. -/
def pairLe (a b : ℚ × ℚ) : Prop := a.1 < b.1 ∨ (a.1 = b.1 ∧ a.2 ≤ b.2)

instance : DecidableRel pairLe := fun a b =>
  inferInstanceAs (Decidable (_ ∨ _))

instance : IsTotal (ℚ × ℚ) pairLe where
  total a b := by
    rcases lt_trichotomy a.1 b.1 with h | h | h
    · exact Or.inl (Or.inl h)
    · rcases le_total a.2 b.2 with h2 | h2
      · exact Or.inl (Or.inr ⟨h, h2⟩)
      · exact Or.inr (Or.inr ⟨h.symm, h2⟩)
    · exact Or.inr (Or.inl h)

instance : IsTrans (ℚ × ℚ) pairLe where
  trans a b c hab hbc := by
    rcases hab with h | ⟨he, h2⟩
    · rcases hbc with h' | ⟨he', _⟩
      · exact Or.inl (h.trans h')
      · exact Or.inl (he' ▸ h)
    · rcases hbc with h' | ⟨he', h2'⟩
      · exact Or.inl (he ▸ h')
      · exact Or.inr ⟨he.trans he', h2.trans h2'⟩

instance : IsAntisymm (ℚ × ℚ) pairLe where
  antisymm a b hab hba := by
    rcases hab with h | ⟨he, h2⟩
    · rcases hba with h' | ⟨he', _⟩
      · exact absurd (h.trans h') (lt_irrefl _)
      · exact absurd h (he' ▸ lt_irrefl _)
    · rcases hba with h' | ⟨_, h2'⟩
      · exact absurd h' (he ▸ lt_irrefl _)
      · exact Prod.ext he (le_antisymm h2 h2')

/-- Round both coordinates of a pole/zero to 5 significant figures. -/
def roundPair (p : ℚ × ℚ) : ℚ × ℚ :=
  (round_to_sig_figs p.1, round_to_sig_figs p.2)

/-- Python's `sorted` on rounded coordinate pairs. -/
def sortPairs (l : List (ℚ × ℚ)) : List (ℚ × ℚ) := List.insertionSort pairLe l

/-- The poles (or zeros) contribution of `_hash_stage`: the list is sorted by
(rounded real, rounded imaginary) and each entry hashed as
`":p={pr},{pi}"` (resp. `":z="`).  Sorting the rounded pairs directly gives
the same emitted sequence as Python's stable sort-by-rounded-key followed by
emitting the rounded values. -/
def pzToken (tag : String) (l : List (ℚ × ℚ)) : String :=
  String.join ((sortPairs (l.map roundPair)).map
    (fun p => tag ++ toString p.1 ++ "," ++ toString p.2))

/-- `_get_fir_coefficients` (source lines 787-793): `numerator` when present
and truthy, else `coefficients` when present and truthy, else none. -/
def _get_fir_coefficients (st : Stage) : Option (List ℚ) :=
  if !st.numerator.isEmpty then some st.numerator
  else if !st.coefficients.isEmpty then some st.coefficients
  else none

/-- The coefficient-list contribution of `_hash_stage`:
`":nc={len}"` followed by each coefficient rounded to 5 significant
figures. -/
def coeffToken (cs : List ℚ) : String :=
  ":nc=" ++ toString cs.length ++
    String.join (cs.map (fun c => ":" ++ toString (round_to_sig_figs c)))

/-- `_hash_stage` (source lines 560-627).  The returned string is the
concatenation of all data fed to the sha256 hasher, in feeding order. -/
def _hash_stage (stage : Stage) (pre : String := "")
    (exclude_gain : Bool := false) (normalize_type : Bool := false) : String :=
  let tname :=
    if normalize_type && stage.typeName.isFIRCoeff then "DigitalFilter"
    else stage.typeName.name
  let base := pre ++ ":" ++ tname
  let g :=
    if exclude_gain then ""
    else match gainToken stage.stage_gain with
      | some q => ":gain=" ++ toString q
      | none => ""
  let dec := decToken stage.decimation_factor
  let pz :=
    if stage.typeName.isPZ then
      ":tf=" ++ stage.pz_transfer_function_type
        ++ (if stage.poles.isEmpty then "" else pzToken ":p=" stage.poles)
        ++ (if stage.zeros.isEmpty then "" else pzToken ":z=" stage.zeros)
    else ""
  let fir :=
    if stage.typeName.isFIRCoeff then
      symToken stage.symmetry ++
        (match _get_fir_coefficients stage with
          | some cs => coeffToken cs
          | none => "")
    else ""
  base ++ g ++ dec ++ pz ++ fir

/-- `_is_passthrough_stage` (source lines 795-801). -/
def _is_passthrough_stage (st : Stage) : Bool :=
  match _get_fir_coefficients st with
  | none => true
  | some cs =>
      cs.isEmpty || (cs.length == 1 && decide (|cs.headD 0 - 1| < 1/1000))

/-- `_hash_fir_fingerprint` (source lines 803-815): coefficient count, the
first three and last three coefficients (index ranges exactly as in the
source, overlapping for short lists) rounded to 5 significant figures, and
the rounded sum of the raw coefficients. -/
def _hash_fir_fingerprint (coeffs : List ℚ) (pre : String) : String :=
  let n := coeffs.length
  let c := fun i : ℕ =>
    ":c" ++ toString i ++ "=" ++ toString (round_to_sig_figs (coeffs.getD i 0))
  pre ++ ":n=" ++ toString n
    ++ String.join ((List.range (min 3 n)).map c)
    ++ String.join ((List.range' (n - 3) (n - (n - 3))).map c)
    ++ ":sum=" ++ toString (round_to_sig_figs coeffs.sum)

/-- `_compute_sensor_signature` (source lines 533-539): hash of the first
stage only, tagged "sensor"; none for an empty stage list. -/
def _compute_sensor_signature (r : List Stage) : Option String :=
  match r with
  | [] => none
  | st :: _ => some (_hash_stage st "sensor")

/-- `_compute_datalogger_signature_stages_1_plus` (source lines 541-558):
the build-time fallback signature hashing all stages after the first. -/
def _compute_datalogger_signature_stages_1_plus (r : List Stage) :
    Option String :=
  if r.isEmpty then none
  else if r.length < 2 then none
  else some ("datalogger:" ++
    String.join ((r.drop 1).enum.map
      (fun p => _hash_stage p.2 ("s" ++ toString p.1))))

/-- Uppercased unit string: `str(units).upper() if units else ""`. -/
def unitsUpper (u : Option String) : String := (u.getD "").toUpper

/-- A unit string denoting volts (after uppercasing). -/
def isVoltStr (s : String) : Bool := s == "V" || s == "VOLT" || s == "VOLTS"

/-- Substring occurrence on character lists (Python's `needle in haystack`
for a nonempty needle; the empty needle is contained in everything). -/
def charsContain (hay needle : List Char) : Bool :=
  match hay with
  | [] => needle.isEmpty
  | _ :: t => needle.isPrefixOf hay || charsContain t needle

/-- Python's `needle in haystack` on strings. -/
def strContains (hay needle : String) : Bool :=
  charsContain hay.data needle.data

/-- `_find_adc_stage_index` (source lines 688-705): index of the first stage
with volt input units and an output-unit string containing "COUNT". -/
def _find_adc_stage_index (r : List Stage) : Option ℕ :=
  r.findIdx? (fun st =>
    isVoltStr (unitsUpper st.input_units)
      && strContains (unitsUpper st.output_units) "COUNT")

/-- A volt-to-volt stage (both unit strings denote volts). -/
def isVtoV (st : Stage) : Bool :=
  isVoltStr (unitsUpper st.input_units) && isVoltStr (unitsUpper st.output_units)

/-- The gain factor used by `_find_preamp_gain`:
`getattr(stage, 'stage_gain', 1.0) or 1.0` (absent or zero counts as 1). -/
def vGain (st : Stage) : ℚ :=
  match st.stage_gain with
  | some g => if g = 0 then 1 else g
  | none => 1

/-- `_find_preamp_gain` (source lines 707-729): product of the gains of the
volt-to-volt stages at indices `1 .. adc_idx - 1`; none when `adc_idx` is
none or `≤ 1`, or when no volt-to-volt stage exists in that range. -/
def _find_preamp_gain (r : List Stage) (adc_idx : Option ℕ) : Option ℚ :=
  match adc_idx with
  | none => none
  | some a =>
    if a ≤ 1 then none
    else
      let res := ((r.take a).drop 1).foldl
        (fun (acc : ℚ × Bool) st =>
          if isVtoV st then (acc.1 * vGain st, true) else acc)
        (1, false)
      if res.2 then some res.1 else none

/-- `_compute_total_digital_gain` (source lines 777-785): product over the
stages from `adc_idx` on of each present, truthy gain. -/
def _compute_total_digital_gain (r : List Stage) (adc_idx : ℕ) : ℚ :=
  (r.drop adc_idx).foldl
    (fun total st =>
      match st.stage_gain with
      | some g => if g ≠ 0 then total * g else total
      | none => total)
    1

/-- The shared FIR-chain part of the datalogger signatures (source lines
750-760, 829-839): skip passthrough stages, fingerprint each remaining
coefficient stage with a running `f{i}` tag, then its truthy decimation. -/
def dlFirChain (stages : List Stage) : String :=
  (stages.foldl
    (fun (acc : String × ℕ) st =>
      if _is_passthrough_stage st then acc
      else match _get_fir_coefficients st with
        | some coeffs =>
            (acc.1 ++ _hash_fir_fingerprint coeffs ("f" ++ toString acc.2)
              ++ decToken st.decimation_factor,
             acc.2 + 1)
        | none => acc)
    ("", 0)).1

/-- `_compute_dl_sig_with_user_preamp` (source lines 731-762): the exact
datalogger signature, seeded with the user's measured preamp gain when it is
not `None` (even a zero gain is hashed — the check is `is not None`). -/
def _compute_dl_sig_with_user_preamp (r : List Stage) (adc_idx : ℕ)
    (user_preamp_gain : Option ℚ) : Option String :=
  if r.isEmpty then none
  else if r.length ≤ adc_idx then none
  else some ("dl_exact:"
    ++ (match user_preamp_gain with
        | some g => ":pg=" ++ toString (pyRound g 2)
        | none => "")
    ++ ":tg=" ++ toString (pyRound (_compute_total_digital_gain r adc_idx) 2)
    ++ dlFirChain (r.drop adc_idx))

/-- `_compute_dl_sig_without_gain` (source lines 817-841): the gain-free
family signature. -/
def _compute_dl_sig_without_gain (r : List Stage) (adc_idx : ℕ) :
    Option String :=
  if r.isEmpty then none
  else if r.length ≤ adc_idx then none
  else some ("dl_family:" ++ dlFirChain (r.drop adc_idx))

/-- `_compute_datalogger_signature_from_response` (source lines 764-775):
the family signature of an unknown response; none when no ADC stage is
found — the stages-1-plus fallback is NOT used here. -/
def _compute_datalogger_signature_from_response (r : List Stage) :
    Option String :=
  if r.isEmpty then none
  else
    match _find_adc_stage_index r with
    | some a => _compute_dl_sig_without_gain r a
    | none => none

/-- `InstrumentInfo` (source lines 21-30). -/
structure InstrumentInfo where
  manufacturer : String
  model : String
  description : String
  nrl_path : String
  stage0_gain : Option ℚ := none
  adc_gain : Option ℚ := none
  family_name : Option String := none
  variant_params : Option String := none
deriving DecidableEq, Repr

/-- `DetectionResult` (source lines 108-115), with its field defaults. -/
structure DetectionResult where
  sensor : Option InstrumentInfo := none
  datalogger : Option InstrumentInfo := none
  sensor_candidates : Option (List InstrumentInfo) := none
  datalogger_candidates : Option (List InstrumentInfo) := none
  sensor_confidence : ℚ := 0
  datalogger_confidence : ℚ := 0
deriving DecidableEq, Repr

/-- `DetectionResult()` with all defaults. -/
def emptyResult : DetectionResult := {}

/-- The three signature → candidate-list dictionaries of a loaded index
(`_sensor_signatures`, `_datalogger_signatures`, `_datalogger_family_sigs`).
Index build appends only nonempty lists, so every stored list is nonempty;
`candidates[0]` is modelled by `List.head?` accordingly. -/
structure IndexData where
  sensors : List (String × List InstrumentInfo) := []
  dataloggers : List (String × List InstrumentInfo) := []
  dataloggers_family : List (String × List InstrumentInfo) := []
deriving DecidableEq, Repr

/-- Dictionary membership + access: `sig in d` and `d[sig]` in one step. -/
def dictLookup (m : List (String × List InstrumentInfo)) (k : String) :
    Option (List InstrumentInfo) :=
  match m with
  | [] => none
  | (s, v) :: t => if s = k then some v else dictLookup t k

/-- The pre-ADC gain product computed inside
`_disambiguate_by_gain_calculation` (source lines 861-865): absolute values
of ALL present, truthy stage gains at indices `1 .. adc_idx - 1`, with no
volt-to-volt unit filtering. -/
def disambUserPreamp (r : List Stage) (adc_idx : ℕ) : ℚ :=
  ((r.take adc_idx).drop 1).foldl
    (fun acc st =>
      match st.stage_gain with
      | some g => if g ≠ 0 then acc * |g| else acc
      | none => acc)
    1

/-- The primary-pass relative gain-ratio difference for a candidate:
`|adc_ratio - preamp_ratio| / preamp_ratio` with
`adc_ratio = user_adc_gain / |candidate.adc_gain|` and
`preamp_ratio = |candidate.stage0_gain| / user_preamp_gain`
(source lines 879-883). -/
def primaryRelDiff (user_adc user_preamp : ℚ) (c : InstrumentInfo) : ℚ :=
  let candidate_adc := |c.adc_gain.getD 0|
  let candidate_preamp := |c.stage0_gain.getD 0|
  |user_adc / candidate_adc - candidate_preamp / user_preamp|
    / (candidate_preamp / user_preamp)

/-- The primary-pass confidence `max(0.5, 1.0 - rel_diff * 2)`
(source line 885). -/
def primaryConf (rel_diff : ℚ) : ℚ := max (1/2) (1 - rel_diff * 2)

/-- One candidate of the primary disambiguation pass (source lines 873-886):
requires truthy stored ADC and first-stage gains, positive magnitudes, a
positive preamp ratio and a relative difference below the 0.15 tolerance. -/
def primaryMatch1 (user_adc user_preamp : ℚ) (c : InstrumentInfo) :
    Option (InstrumentInfo × ℚ) :=
  if truthyQ c.adc_gain && truthyQ c.stage0_gain then
    let candidate_adc := |c.adc_gain.getD 0|
    let candidate_preamp := |c.stage0_gain.getD 0|
    if 0 < candidate_adc ∧ 0 < candidate_preamp then
      if 0 < candidate_preamp / user_preamp then
        if primaryRelDiff user_adc user_preamp c < 3/20 then
          some (c, primaryConf (primaryRelDiff user_adc user_preamp c))
        else none
      else none
    else none
  else none

/-- The accepted candidates of the primary pass, in candidate order. -/
def primaryMatches (user_adc user_preamp : ℚ)
    (candidates : List InstrumentInfo) : List (InstrumentInfo × ℚ) :=
  candidates.filterMap (primaryMatch1 user_adc user_preamp)

/-- One candidate of the secondary pass (source lines 892-902): the stored
ADC-gain ratio is tested against the expected multipliers in order, taking
the first within 10% with confidence `0.7 - rel_diff`. -/
def secondaryMatch1 (user_adc : ℚ) (c : InstrumentInfo) :
    Option (InstrumentInfo × ℚ) :=
  if truthyQ c.adc_gain then
    let candidate_adc := |c.adc_gain.getD 0|
    if 0 < candidate_adc then
      let ratio := user_adc / candidate_adc
      ([1, 2, 4, 1/2, 1/4] : List ℚ).findSome? (fun expected =>
        let rel_diff := |ratio - expected| / expected
        if rel_diff < 1/10 then some (c, 7/10 - rel_diff) else none)
    else none
  else none

/-- The accepted candidates of the secondary pass, in candidate order. -/
def secondaryMatches (user_adc : ℚ) (candidates : List InstrumentInfo) :
    List (InstrumentInfo × ℚ) :=
  candidates.filterMap (secondaryMatch1 user_adc)

/-- `matches.sort(key=conf, reverse=True); return matches[0]`: Python's sort
is stable, so the head after a descending stable sort is the earliest
element of maximal confidence. -/
def pickBest : List (InstrumentInfo × ℚ) → Option (InstrumentInfo × ℚ)
  | [] => none
  | m :: ms =>
      some (ms.foldl (fun best x => if best.2 < x.2 then x else best) m)

/-- `_disambiguate_by_gain_calculation` (source lines 843-908).  The
`sensor` parameter is accepted and ignored, as in the source. -/
def _disambiguate_by_gain_calculation (r : List Stage)
    (candidates : List InstrumentInfo) (sensor : Option InstrumentInfo)
    (adc_idx : Option ℕ) : Option (InstrumentInfo × ℚ) :=
  match adc_idx.orElse (fun _ => _find_adc_stage_index r) with
  | none => none
  | some a =>
    let user_adc_gain := _compute_total_digital_gain r a
    if user_adc_gain = 0 then none
    else
      let user_preamp_gain := disambUserPreamp r a
      if user_preamp_gain = 0 then none
      else
        match pickBest (primaryMatches user_adc_gain user_preamp_gain
            candidates) with
        | some m => some m
        | none => pickBest (secondaryMatches user_adc_gain candidates)

/-- The sensor-lookup step of `detect_instrument` (source lines 637-647). -/
def sensorStep (d : IndexData) (r : List Stage) : DetectionResult :=
  match _compute_sensor_signature r with
  | none => {}
  | some sig =>
    match dictLookup d.sensors sig with
    | none => {}
    | some candidates =>
      if candidates.length = 1 then
        { sensor := candidates.head?, sensor_candidates := some candidates,
          sensor_confidence := 1 }
      else
        { sensor := candidates.head?, sensor_candidates := some candidates,
          sensor_confidence := 0 }

/-- The exact-signature lookup of `detect_instrument` (source lines
649-656): the candidate list on a hit, none otherwise. -/
def exactLookup (d : IndexData) (r : List Stage) :
    Option (List InstrumentInfo) :=
  match _find_adc_stage_index r with
  | none => none
  | some a =>
    match _compute_dl_sig_with_user_preamp r a
        (_find_preamp_gain r (some a)) with
    | none => none
    | some sig => dictLookup d.dataloggers sig

/-- Populating the datalogger fields from an exact-signature hit (source
lines 657-665): confidence 1 for exactly one candidate, else the first
candidate with confidence 0. -/
def dlExactApply (candidates : List InstrumentInfo) (res : DetectionResult) :
    DetectionResult :=
  { res with
    datalogger := candidates.head?,
    datalogger_candidates := some candidates,
    datalogger_confidence := if candidates.length = 1 then 1 else 0 }

/-- The family-signature step of `detect_instrument` (source lines
667-685). -/
def familyStep (d : IndexData) (r : List Stage) (res : DetectionResult) :
    DetectionResult :=
  match _compute_datalogger_signature_from_response r with
  | none => res
  | some sig =>
    match dictLookup d.dataloggers_family sig with
    | none => res
    | some candidates =>
      let res := { res with datalogger_candidates := some candidates }
      if candidates.length = 1 then
        { res with datalogger := candidates.head?, datalogger_confidence := 1 }
      else if 1 < candidates.length then
        match _disambiguate_by_gain_calculation r candidates res.sensor
            (_find_adc_stage_index r) with
        | some best_match =>
            { res with datalogger := some best_match.1,
                       datalogger_confidence := best_match.2 }
        | none =>
            { res with datalogger := candidates.head?,
                       datalogger_confidence := 0 }
      else res

/-- The body of `detect_instrument` once the index is loaded (source lines
635-686): sensor lookup, then exact datalogger lookup (returning
immediately on a hit), then family lookup with disambiguation. -/
def detectCore (d : IndexData) (r : List Stage) : DetectionResult :=
  let res := sensorStep d r
  match exactLookup d r with
  | some candidates => dlExactApply candidates res
  | none => familyStep d r res

/-- `detect_instrument` (source lines 629-686) including load-on-demand
(lines 631-633): `loaded` is the in-memory index (`self._index` state) and
`loadResult` the outcome `load_index()` would produce; on load failure an
empty `DetectionResult` is returned. -/
def detect_instrument (loaded : Option IndexData)
    (loadResult : Option IndexData) (r : List Stage) : DetectionResult :=
  match loaded with
  | some d => detectCore d r
  | none =>
    match loadResult with
    | some d => detectCore d r
    | none => {}

/-! ## Persistence (`save_index` / `load_index`, source lines 191-256)

The JSON text layer is abstracted to structured JSON values: `json.dump`
followed by `json.load` reproduces the same tree of dicts/lists/strings/
numbers/nulls (Python dicts keep insertion order and float round-trip is
exact), so a saved index is modelled as that tree. -/

/-- A JSON value as it appears in an `InstrumentInfo` record. -/
inductive JValue
  | jstr : String → JValue
  | jnum : ℚ → JValue
  | jnull : JValue
deriving DecidableEq, Repr

/-- Serialization of an optional float field. -/
def jOfOptNum : Option ℚ → JValue
  | some q => .jnum q
  | none => .jnull

/-- Serialization of an optional string field. -/
def jOfOptStr : Option String → JValue
  | some s => .jstr s
  | none => .jnull

/-- `dataclasses.asdict` applied to an `InstrumentInfo`. -/
def asdict (i : InstrumentInfo) : List (String × JValue) :=
  [("manufacturer", .jstr i.manufacturer),
   ("model", .jstr i.model),
   ("description", .jstr i.description),
   ("nrl_path", .jstr i.nrl_path),
   ("stage0_gain", jOfOptNum i.stage0_gain),
   ("adc_gain", jOfOptNum i.adc_gain),
   ("family_name", jOfOptStr i.family_name),
   ("variant_params", jOfOptStr i.variant_params)]

/-- Field access in a decoded JSON record. -/
def jGet (d : List (String × JValue)) (k : String) : Option JValue :=
  match d with
  | [] => none
  | (s, v) :: t => if s = k then some v else jGet t k

/-- Decode a required string field. -/
def jAsStr : Option JValue → Option String
  | some (.jstr s) => some s
  | _ => none

/-- Decode an optional float field (null ↦ none). -/
def jAsOptNum : Option JValue → Option (Option ℚ)
  | some (.jnum q) => some (some q)
  | some .jnull => some none
  | _ => none

/-- Decode an optional string field (null ↦ none). -/
def jAsOptStr : Option JValue → Option (Option String)
  | some (.jstr s) => some (some s)
  | some .jnull => some none
  | _ => none

/-- `InstrumentInfo(**info)` on a decoded JSON record; none models the
`KeyError`/type failure path that makes `load_index` return `False`. -/
def instrumentInfoOfDict (d : List (String × JValue)) :
    Option InstrumentInfo := do
  let manufacturer ← jAsStr (jGet d "manufacturer")
  let model ← jAsStr (jGet d "model")
  let description ← jAsStr (jGet d "description")
  let nrl_path ← jAsStr (jGet d "nrl_path")
  let stage0_gain ← jAsOptNum (jGet d "stage0_gain")
  let adc_gain ← jAsOptNum (jGet d "adc_gain")
  let family_name ← jAsOptStr (jGet d "family_name")
  let variant_params ← jAsOptStr (jGet d "variant_params")
  pure ⟨manufacturer, model, description, nrl_path, stage0_gain, adc_gain,
        family_name, variant_params⟩

/-- The persisted index document (source lines 234-249): version tag,
content hash, and the three maps with each record serialized by `asdict`. -/
structure SavedIndex where
  version : String
  nrl_hash : String
  sensors : List (String × List (List (String × JValue)))
  dataloggers : List (String × List (List (String × JValue)))
  dataloggers_family : List (String × List (List (String × JValue)))
deriving DecidableEq, Repr

/-- Serialize one signature map. -/
def saveMap (m : List (String × List InstrumentInfo)) :
    List (String × List (List (String × JValue))) :=
  m.map (fun p => (p.1, p.2.map asdict))

/-- `save_index` (source lines 232-256), minus the file write: the document
handed to `json.dump`. -/
def save_index (nrl_hash : String) (d : IndexData) : SavedIndex :=
  { version := "0.1", nrl_hash := nrl_hash,
    sensors := saveMap d.sensors,
    dataloggers := saveMap d.dataloggers,
    dataloggers_family := saveMap d.dataloggers_family }

/-- Decode one record list; any failing record fails the load. -/
def loadList (l : List (List (String × JValue))) :
    Option (List InstrumentInfo) :=
  match l with
  | [] => some []
  | d :: t =>
    match instrumentInfoOfDict d, loadList t with
    | some i, some rest => some (i :: rest)
    | _, _ => none

/-- Decode one signature map. -/
def loadMap (m : List (String × List (List (String × JValue)))) :
    Option (List (String × List InstrumentInfo)) :=
  match m with
  | [] => some []
  | (s, l) :: t =>
    match loadList l, loadMap t with
    | some il, some rest => some ((s, il) :: rest)
    | _, _ => none

/-- `load_index` (source lines 191-230), minus the file read: rebuild the
three in-memory maps from the saved document (the saved format always stores
lists, so the list branch of the legacy `isinstance` check applies); none
models the `return False` failure path. -/
def load_index (s : SavedIndex) : Option IndexData := do
  let sensors ← loadMap s.sensors
  let dataloggers ← loadMap s.dataloggers
  let dataloggers_family ← loadMap s.dataloggers_family
  pure ⟨sensors, dataloggers, dataloggers_family⟩

/-! ## Specification-side reformulations

Closed-form descriptions (products over filtered stage lists) of the loops
in `_find_preamp_gain`, `_compute_total_digital_gain` and the preamp loop of
`_disambiguate_by_gain_calculation`, used to state the claims. -/

/-- The factor a stage contributes to the total digital gain: its gain when
present and truthy, else 1. -/
def gainFactor (st : Stage) : ℚ :=
  match st.stage_gain with
  | some g => if g ≠ 0 then g else 1
  | none => 1

/-- The gains of the volt-to-volt stages at indices `1 .. adc_idx - 1`
(absent/zero gains counted as 1, as in `_find_preamp_gain`). -/
def vtovGains (r : List Stage) (adc_idx : ℕ) : List ℚ :=
  (((r.take adc_idx).drop 1).filter isVtoV).map vGain

/-- Whether any volt-to-volt stage exists at indices `1 .. adc_idx - 1`. -/
def hasVtoVBefore (r : List Stage) (adc_idx : ℕ) : Bool :=
  ((r.take adc_idx).drop 1).any isVtoV

/-- The absolute values of the present, truthy stage gains at indices
`1 .. adc_idx - 1`, with no unit filtering (the quantity actually multiplied
by the disambiguation pass). -/
def absTruthyGains (r : List Stage) (adc_idx : ℕ) : List ℚ :=
  (((r.take adc_idx).drop 1).filter (fun st => truthyQ st.stage_gain)).map
    (fun st => |st.stage_gain.getD 0|)

/-! ## Concrete test data

A three-stage response (sensor stage, volt-to-volt preamp of gain 2, ADC
stage of gain 100 with a two-tap FIR), variants of it, and small indexes
built from their own computed signatures. -/

/-- A sensor-like first stage (velocity in, volts out, gain 1500). -/
def testSensorStage : Stage :=
  { typeName := .ResponseStage, stage_gain := some 1500,
    input_units := some "M/S", output_units := some "V" }

/-- A volt-to-volt preamp stage of gain 2. -/
def testPreampStage : Stage :=
  { typeName := .ResponseStage, stage_gain := some 2,
    input_units := some "V", output_units := some "V" }

/-- An ADC stage (volts in, counts out) of gain 100 with FIR numerator
`[0.5, 0.5]` and decimation 1. -/
def testAdcStage : Stage :=
  { typeName := .CoefficientsTypeResponseStage,
    stage_gain := some 100, decimation_factor := some 1,
    input_units := some "V", output_units := some "COUNTS",
    numerator := [1/2, 1/2] }

/-- The main test response: sensor, preamp ×2, ADC ×100. -/
def testResponse : List Stage := [testSensorStage, testPreampStage, testAdcStage]

/-- A generic volt-to-volt stage of gain 10 (not an ADC stage). -/
def testGenericStage : Stage :=
  { typeName := .ResponseStage, stage_gain := some 10,
    input_units := some "V", output_units := some "V" }

/-- A response with stages but no volt-in/count-out (ADC) stage. -/
def testNoAdcResponse : List Stage := [testSensorStage, testGenericStage]

/-- A stage with non-volt input units ("A" → "V") and gain 3, placed before
the ADC stage to separate the two preamp-gain computations. -/
def testCurrentStage : Stage :=
  { typeName := .ResponseStage, stage_gain := some 3,
    input_units := some "A", output_units := some "V" }

/-- A response whose pre-ADC chain mixes a volt-to-volt stage (gain 2) with
a non-volt-to-volt stage (gain 3); the ADC stage is at index 3. -/
def testMixedResponse : List Stage :=
  [testSensorStage, testPreampStage, testCurrentStage, testAdcStage]

/-- Reference datalogger A: ADC gain 100, first-stage gain 2. -/
def candA : InstrumentInfo :=
  { manufacturer := "Q", model := "A", description := "dA",
    nrl_path := "pA", stage0_gain := some 2, adc_gain := some 100,
    family_name := some "Q A" }

/-- Reference datalogger B: same family, ADC gain 1000. -/
def candB : InstrumentInfo :=
  { manufacturer := "Q", model := "B", description := "dB",
    nrl_path := "pB", stage0_gain := some 2, adc_gain := some 1000,
    family_name := some "Q A" }

/-- Reference datalogger D (for the exact-signature hit). -/
def candD : InstrumentInfo :=
  { manufacturer := "R", model := "D", description := "dD",
    nrl_path := "pD", stage0_gain := some 2, adc_gain := some 100 }

/-- Reference datalogger E: first-stage gain 6 (matches the mixed-response
disambiguation preamp product 2·3, not the volt-to-volt product 2). -/
def candE : InstrumentInfo :=
  { manufacturer := "S", model := "E", description := "dE",
    nrl_path := "pE", stage0_gain := some 6, adc_gain := some 100 }

/-- The family signature of `testResponse`. -/
def testFamilySig : String :=
  (_compute_datalogger_signature_from_response testResponse).getD ""

/-- An index whose family map collides `testResponse`'s family signature
with both reference dataloggers A and B. -/
def testFamilyIndex : IndexData :=
  { dataloggers_family := [(testFamilySig, [candA, candB])] }

/-- The exact datalogger signature of `testResponse`, computed with its own
measured preamp gain. -/
def testExactSig : String :=
  (_compute_dl_sig_with_user_preamp testResponse 2
    (_find_preamp_gain testResponse (some 2))).getD ""

/-- An index whose exact map contains `testResponse`'s exact signature. -/
def testExactIndex : IndexData :=
  { dataloggers := [(testExactSig, [candD])] }

/-- The build-time fallback signature (stages after the first) of the
ADC-less response. -/
def testFallbackSig : String :=
  (_compute_datalogger_signature_stages_1_plus testNoAdcResponse).getD ""

/-- An index whose family map holds two entries under the fallback signature
of `testNoAdcResponse` — exactly the collision scenario of the claim. -/
def testFallbackIndex : IndexData :=
  { dataloggers_family := [(testFallbackSig, [candA, candB])] }

/-- A stage whose gain 0.001 rounds to 0.00 at two decimal places. -/
def testGainStageA : Stage :=
  { typeName := .ResponseStage, stage_gain := some (1/1000) }

/-- A stage whose gain 0.002 also rounds to 0.00 — the gains differ in their
first significant figure. -/
def testGainStageB : Stage :=
  { typeName := .ResponseStage, stage_gain := some (2/1000) }

/-- A FIR stage with single coefficient 1.000049 (rounds to 1.0000 at five
significant figures). -/
def testCoeffStageA : Stage :=
  { typeName := .FIRResponseStage, coefficients := [1000049/1000000] }

/-- A FIR stage with single coefficient 1.0000551 (rounds to 1.0001): it
differs from 1.000049 only beyond the 5th significant figure. -/
def testCoeffStageB : Stage :=
  { typeName := .FIRResponseStage, coefficients := [10000551/10000000] }

/-- A stage with gain 100.001. -/
def testRoundStageA : Stage :=
  { typeName := .ResponseStage, stage_gain := some (100001/1000) }

/-- A stage with gain 100.0011 — both gains round to 100.0 at two decimal
places. -/
def testRoundStageB : Stage :=
  { typeName := .ResponseStage, stage_gain := some (1000011/10000) }

/-- A pole-zero stage with two poles and two zeros. -/
def testPZStageA : Stage :=
  { typeName := .PolesZerosResponseStage,
    pz_transfer_function_type := "LAPLACE (RADIANS-SECOND)",
    stage_gain := some 1500,
    poles := [(-1, 2), (-3, -4)], zeros := [(0, 0), (0, 1)] }

/-- The same pole-zero stage with both lists permuted. -/
def testPZStageB : Stage :=
  { typeName := .PolesZerosResponseStage,
    pz_transfer_function_type := "LAPLACE (RADIANS-SECOND)",
    stage_gain := some 1500,
    poles := [(-3, -4), (-1, 2)], zeros := [(0, 1), (0, 0)] }

/-! ## Helper lemmas -/

/-- The total-digital-gain loop is a product of `gainFactor`s. -/
theorem foldl_total_gain (l : List Stage) (t : ℚ) :
    (l.foldl (fun total st =>
      match st.stage_gain with
      | some g => if g ≠ 0 then total * g else total
      | none => total) t) = t * (l.map gainFactor).prod := by
  induction l generalizing t with
  | nil => simp
  | cons s l ih =>
    simp only [List.foldl_cons, List.map_cons, List.prod_cons, ih]
    cases h : s.stage_gain with
    | none => simp [gainFactor, h]
    | some g =>
      by_cases hg : g = 0
      · simp [gainFactor, h, hg]
      · simp [gainFactor, h, hg, mul_assoc]

/-- Every digital-gain factor is nonzero. -/
theorem gainFactor_ne_zero (st : Stage) : gainFactor st ≠ 0 := by
  unfold gainFactor
  cases h : st.stage_gain with
  | none => exact one_ne_zero
  | some g =>
    by_cases hg : g = 0
    · simp [hg]
    · simp [hg]

/-- The `_find_preamp_gain` loop computes the product of volt-to-volt gains
together with the found flag. -/
theorem foldl_preamp (l : List Stage) (g : ℚ) (b : Bool) :
    (l.foldl (fun (acc : ℚ × Bool) st =>
      if isVtoV st then (acc.1 * vGain st, true) else acc) (g, b))
    = (g * ((l.filter isVtoV).map vGain).prod, b || l.any isVtoV) := by
  induction l generalizing g b with
  | nil => simp
  | cons s l ih =>
    by_cases h : isVtoV s
    · simp [h, ih, mul_assoc]
    · simp [h, ih]

/-- The disambiguation preamp loop computes the product of absolute truthy
gains. -/
theorem foldl_disamb (l : List Stage) (t : ℚ) :
    (l.foldl (fun acc st =>
      match st.stage_gain with
      | some g => if g ≠ 0 then acc * |g| else acc
      | none => acc) t)
    = t * ((l.filter (fun st => truthyQ st.stage_gain)).map
        (fun st => |st.stage_gain.getD 0|)).prod := by
  induction l generalizing t with
  | nil => simp
  | cons s l ih =>
    simp only [List.foldl_cons, ih]
    cases h : s.stage_gain with
    | none => simp [truthyQ, h]
    | some g =>
      by_cases hg : g = 0
      · simp [truthyQ, h, hg]
      · simp [truthyQ, h, hg, mul_assoc]

/-- When every truthy-gain stage is volt-to-volt, the absolute truthy-gain
product is the absolute value of the volt-to-volt gain product. -/
theorem absTruthy_eq_abs_vtov (l : List Stage)
    (h : ∀ st ∈ l, truthyQ st.stage_gain = true → isVtoV st = true) :
    ((l.filter (fun st => truthyQ st.stage_gain)).map
      (fun st => |st.stage_gain.getD 0|)).prod
    = |((l.filter isVtoV).map vGain).prod| := by
  induction l with
  | nil => simp
  | cons s l ih =>
    have ih' := ih (fun st hst => h st (List.mem_cons_of_mem s hst))
    by_cases ht : truthyQ s.stage_gain
    · have hv : isVtoV s = true := h s (List.mem_cons_self s l) ht
      obtain ⟨g, hg⟩ : ∃ g, s.stage_gain = some g := by
        cases hsg : s.stage_gain with
        | none => simp [truthyQ, hsg] at ht
        | some g => exact ⟨g, rfl⟩
      have hg0 : g ≠ 0 := by
        simpa [truthyQ, hg] using ht
      have htg : truthyQ (some g) = true := by simp [truthyQ, hg0]
      simp [List.filter_cons, htg, hv, ih', hg, vGain, hg0, abs_mul]
    · have hone : vGain s = 1 := by
        cases hsg : s.stage_gain with
        | none => simp [vGain, hsg]
        | some g =>
          have hzero : g = 0 := by
            by_contra hne
            exact ht (by simp [truthyQ, hsg, hne])
          simp [vGain, hsg, hzero]
      by_cases hv : isVtoV s
      · simp [List.filter_cons, ht, hv, ih', hone]
      · simp [List.filter_cons, ht, hv, ih']

/-- Sorting is invariant under permutation of the input. -/
theorem sortPairs_congr {l₁ l₂ : List (ℚ × ℚ)} (h : l₁.Perm l₂) :
    sortPairs l₁ = sortPairs l₂ :=
  List.eq_of_perm_of_sorted
    (((List.perm_insertionSort pairLe l₁).trans h).trans
      (List.perm_insertionSort pairLe l₂).symm)
    (List.sorted_insertionSort pairLe l₁)
    (List.sorted_insertionSort pairLe l₂)

/-- Lists of equal length are simultaneously empty. -/
theorem isEmpty_congr {α β : Type} {l₁ : List α} {l₂ : List β}
    (h : l₁.length = l₂.length) : l₁.isEmpty = l₂.isEmpty := by
  cases l₁ <;> cases l₂ <;> simp_all

/-- `getD` commutes with `map` when the default is the image of a default. -/
theorem getD_map (f : ℚ → ℚ) (l : List ℚ) (i : ℕ) (d : ℚ) :
    (l.map f).getD i (f d) = f (l.getD i d) := by
  induction l generalizing i with
  | nil => simp
  | cons a t ih =>
    cases i with
    | zero => simp
    | succ j => simpa using ih j

/-- The coefficient token depends only on the rounded coefficients. -/
theorem coeffToken_congr {cs₁ cs₂ : List ℚ}
    (h : cs₁.map (fun c => round_to_sig_figs c)
       = cs₂.map (fun c => round_to_sig_figs c)) :
    coeffToken cs₁ = coeffToken cs₂ := by
  have hl : cs₁.length = cs₂.length := by
    have := congrArg List.length h
    simpa using this
  unfold coeffToken
  rw [hl]
  have hj : cs₁.map (fun c => ":" ++ toString (round_to_sig_figs c))
      = cs₂.map (fun c => ":" ++ toString (round_to_sig_figs c)) := by
    have hmap := congrArg (List.map (fun q => ":" ++ toString q)) h
    simpa [List.map_map, Function.comp] using hmap
  rw [hj]

/-- Every accepted primary-pass candidate carries the confidence
`max(0.5, 1 - 2·relDiff)` for a nonnegative relative difference below the
0.15 tolerance, and that confidence lies in `[1/2, 1]`. -/
theorem mem_primaryMatches_spec {ua up : ℚ} {cands : List InstrumentInfo}
    {m : InstrumentInfo × ℚ}
    (h : m ∈ primaryMatches ua up cands) :
    m.2 = primaryConf (primaryRelDiff ua up m.1)
    ∧ 0 ≤ primaryRelDiff ua up m.1
    ∧ primaryRelDiff ua up m.1 < 3/20
    ∧ 1/2 ≤ m.2 ∧ m.2 ≤ 1 := by
  rw [primaryMatches, List.mem_filterMap] at h
  obtain ⟨a, _, ha⟩ := h
  simp only [primaryMatch1] at ha
  split_ifs at ha with hb hpos hpr htol
  all_goals try exact Option.noConfusion ha
  simp only [Option.some.injEq] at ha
  cases ha
  have hd0 : 0 ≤ primaryRelDiff ua up a := by
    rw [primaryRelDiff]
    exact div_nonneg (abs_nonneg _) hpr.le
  refine ⟨rfl, hd0, htol, le_max_left _ _, ?_⟩
  show primaryConf (primaryRelDiff ua up a) ≤ 1
  rw [primaryConf]
  apply max_le
  · norm_num
  · linarith

/-- Every accepted secondary-pass candidate has confidence in `[1/2, 1]`. -/
theorem mem_secondaryMatches_bounds {ua : ℚ} {cands : List InstrumentInfo}
    {m : InstrumentInfo × ℚ}
    (h : m ∈ secondaryMatches ua cands) :
    1/2 ≤ m.2 ∧ m.2 ≤ 1 := by
  rw [secondaryMatches, List.mem_filterMap] at h
  obtain ⟨a, _, ha⟩ := h
  simp only [secondaryMatch1] at ha
  split_ifs at ha with hb hpos
  all_goals try exact Option.noConfusion ha
  obtain ⟨e, he, hfe⟩ := List.exists_of_findSome?_eq_some ha
  have he' : (0 : ℚ) < e := by
    simp only [List.mem_cons, List.not_mem_nil, or_false] at he
    rcases he with rfl | rfl | rfl | rfl | rfl <;> norm_num
  split_ifs at hfe with hrd
  simp only [Option.some.injEq] at hfe
  cases hfe
  have h0 : 0 ≤ |ua / |a.adc_gain.getD 0| - e| / e :=
    div_nonneg (abs_nonneg _) he'.le
  constructor
  · show 1/2 ≤ 7/10 - |ua / |a.adc_gain.getD 0| - e| / e
    linarith
  · show 7/10 - |ua / |a.adc_gain.getD 0| - e| / e ≤ 1
    linarith

/-- The running best of the confidence fold is an element of the list. -/
theorem foldl_best_mem (xs : List (InstrumentInfo × ℚ))
    (x : InstrumentInfo × ℚ) :
    xs.foldl (fun best y => if best.2 < y.2 then y else best) x ∈ x :: xs := by
  induction xs generalizing x with
  | nil => simp
  | cons y ys ih =>
    simp only [List.foldl_cons]
    by_cases hxy : x.2 < y.2
    · rcases List.mem_cons.mp (ih y) with h | h
      · simp [hxy, h]
      · simp [hxy, List.mem_cons, h]
    · rcases List.mem_cons.mp (ih x) with h | h
      · simp [hxy, h]
      · simp [hxy, List.mem_cons, h]

/-- `pickBest` returns an element of its input list. -/
theorem pickBest_mem {l : List (InstrumentInfo × ℚ)} {m : InstrumentInfo × ℚ}
    (h : pickBest l = some m) : m ∈ l := by
  cases l with
  | nil => exact Option.noConfusion h
  | cons x xs =>
    simp only [pickBest, Option.some.injEq] at h
    subst h
    exact foldl_best_mem xs x

/-- Any result the disambiguation heuristic returns has confidence in
`[1/2, 1]`. -/
theorem disamb_conf_bounds {r : List Stage} {cands : List InstrumentInfo}
    {sens : Option InstrumentInfo} {a : Option ℕ} {m : InstrumentInfo × ℚ}
    (h : _disambiguate_by_gain_calculation r cands sens a = some m) :
    1/2 ≤ m.2 ∧ m.2 ≤ 1 := by
  cases ho : a.orElse (fun _ => _find_adc_stage_index r) with
  | none =>
    simp only [_disambiguate_by_gain_calculation, ho] at h
    exact Option.noConfusion h
  | some a' =>
    simp only [_disambiguate_by_gain_calculation, ho] at h
    split_ifs at h with h1 h2
    cases hp : pickBest (primaryMatches (_compute_total_digital_gain r a')
        (disambUserPreamp r a') cands) with
    | some m1 =>
      rw [hp] at h
      simp only [Option.some.injEq] at h
      have hmem := pickBest_mem hp
      rw [h] at hmem
      have hs := mem_primaryMatches_spec hmem
      exact ⟨hs.2.2.2.1, hs.2.2.2.2⟩
    | none =>
      rw [hp] at h
      have hmem := pickBest_mem h
      exact mem_secondaryMatches_bounds hmem

/-- Shape of the sensor-lookup step: the sensor confidence is 1 exactly when
the lookup produced a single-candidate list, else 0, and the datalogger
fields stay at their defaults. -/
theorem sensorStep_spec (d : IndexData) (r : List Stage) :
    ((sensorStep d r).sensor_confidence = 1 ↔
      ∃ cs, (sensorStep d r).sensor_candidates = some cs ∧ cs.length = 1)
    ∧ ((sensorStep d r).sensor_confidence = 0
       ∨ (sensorStep d r).sensor_confidence = 1)
    ∧ (sensorStep d r).datalogger = none
    ∧ (sensorStep d r).datalogger_candidates = none
    ∧ (sensorStep d r).datalogger_confidence = 0 := by
  cases hsig : _compute_sensor_signature r with
  | none => simp [sensorStep, hsig]
  | some sig =>
    cases hlk : dictLookup d.sensors sig with
    | none => simp [sensorStep, hsig, hlk]
    | some cs =>
      by_cases hlen : cs.length = 1
      · simp [sensorStep, hsig, hlk, hlen]
      · simp [sensorStep, hsig, hlk, hlen]

/-! ## Claims -/

/-- C10: for every response and ADC index, the total post-ADC digital gain
is the product over the stages from the ADC on of their gain factors, where
a missing or zero gain contributes a factor of 1; consequently it is never
0, so the `user_adc_gain == 0` guard of the disambiguation heuristic is
unreachable. -/
theorem C10_total_digital_gain (r : List Stage) (adc_idx : ℕ) :
    _compute_total_digital_gain r adc_idx
      = ((r.drop adc_idx).map gainFactor).prod
    ∧ _compute_total_digital_gain r adc_idx ≠ 0 := by
  have he : _compute_total_digital_gain r adc_idx
      = ((r.drop adc_idx).map gainFactor).prod := by
    unfold _compute_total_digital_gain
    simpa using foldl_total_gain (r.drop adc_idx) 1
  refine ⟨he, ?_⟩
  rw [he]
  apply List.prod_ne_zero
  intro h0
  obtain ⟨st, _, hst⟩ := List.mem_map.mp h0
  exact gainFactor_ne_zero st hst

/-- Witness for C10 at the concrete test response. -/
theorem C10_witness :
    _compute_total_digital_gain testResponse 2
      = ((testResponse.drop 2).map gainFactor).prod
    ∧ _compute_total_digital_gain testResponse 2 ≠ 0 :=
  C10_total_digital_gain testResponse 2

/-- C9: detection degrades instead of raising: when the index is absent and
loading fails, `detect_instrument` returns the empty `DetectionResult`; on a
response with no stages the result is the empty result; and whenever neither
a sensor signature nor an ADC stage is resolvable, both the sensor and the
datalogger stay unset. -/
theorem C9_detect_degrades :
    (∀ r : List Stage, detect_instrument none none r = emptyResult)
    ∧ (∀ d : IndexData, detectCore d [] = emptyResult)
    ∧ (∀ (d : IndexData) (r : List Stage),
        _compute_sensor_signature r = none →
        _find_adc_stage_index r = none →
        (detectCore d r).sensor = none ∧ (detectCore d r).datalogger = none) := by
  refine ⟨fun r => rfl, fun d => rfl, ?_⟩
  intro d r hs ha
  have hfam : _compute_datalogger_signature_from_response r = none := by
    unfold _compute_datalogger_signature_from_response
    split
    · rfl
    · rw [ha]
  have hex : exactLookup d r = none := by
    unfold exactLookup
    rw [ha]
  have hsen : sensorStep d r = emptyResult := by
    unfold sensorStep
    rw [hs]
    rfl
  simp only [detectCore, hex, familyStep, hfam, hsen]
  exact ⟨rfl, rfl⟩

/-- Witness for C9 at the empty response and empty index. -/
theorem C9_witness :
    _compute_sensor_signature ([] : List Stage) = none
    ∧ _find_adc_stage_index ([] : List Stage) = none
    ∧ (detectCore {} []).sensor = none
    ∧ (detectCore {} []).datalogger = none := by
  refine ⟨rfl, rfl, ?_⟩
  exact C9_detect_degrades.2.2 {} [] rfl rfl

/-- C7: permuting the poles list or the zeros list of a stage leaves
`_hash_stage` (and hence every signature built from it) unchanged, for every
combination of the remaining stage fields and hash options. -/
theorem C7_pz_permutation (tn : StageType) (sg : Option ℚ) (df : Option ℤ)
    (iu ou : Option String) (tf : String) (sym : Option String)
    (num cof : List ℚ) (pre : String) (eg nt : Bool)
    (p₁ p₂ z₁ z₂ : List (ℚ × ℚ)) (hp : p₁.Perm p₂) (hz : z₁.Perm z₂) :
    _hash_stage ⟨tn, sg, df, iu, ou, tf, p₁, z₁, sym, num, cof⟩ pre eg nt
      = _hash_stage ⟨tn, sg, df, iu, ou, tf, p₂, z₂, sym, num, cof⟩ pre eg nt := by
  have hpz : pzToken ":p=" p₁ = pzToken ":p=" p₂ := by
    unfold pzToken
    rw [sortPairs_congr (hp.map roundPair)]
  have hzz : pzToken ":z=" z₁ = pzToken ":z=" z₂ := by
    unfold pzToken
    rw [sortPairs_congr (hz.map roundPair)]
  have hpe : p₁.isEmpty = p₂.isEmpty := isEmpty_congr hp.length_eq
  have hze : z₁.isEmpty = z₂.isEmpty := isEmpty_congr hz.length_eq
  have hgf : _get_fir_coefficients ⟨tn, sg, df, iu, ou, tf, p₁, z₁, sym, num, cof⟩
      = _get_fir_coefficients ⟨tn, sg, df, iu, ou, tf, p₂, z₂, sym, num, cof⟩ :=
    rfl
  simp only [_hash_stage]
  rw [hpz, hzz, hpe, hze, hgf]

/-- Witness for C7: the concrete pole-zero stage hashes equally with its
pole and zero lists swapped. -/
theorem C7_witness :
    ([(-1, 2), (-3, -4)] : List (ℚ × ℚ)).Perm [(-3, -4), (-1, 2)]
    ∧ ([(0, 0), (0, 1)] : List (ℚ × ℚ)).Perm [(0, 1), (0, 0)]
    ∧ _hash_stage testPZStageA "sensor" = _hash_stage testPZStageB "sensor" := by
  refine ⟨List.Perm.swap _ _ _, List.Perm.swap _ _ _, ?_⟩
  exact C7_pz_permutation .PolesZerosResponseStage (some 1500) none none none
    "LAPLACE (RADIANS-SECOND)" none [] [] "sensor" false false
    [(-1, 2), (-3, -4)] [(-3, -4), (-1, 2)] [(0, 0), (0, 1)] [(0, 1), (0, 0)]
    (List.Perm.swap _ _ _) (List.Perm.swap _ _ _)

/-- C3 (amended): numeric stage parameters affect signatures only through
their rounded values — gains through rounding to 2 decimal places (when
truthy), pole/zero coordinates and filter coefficients through rounding to 5
significant figures, and FIR fingerprints additionally through the rounded
raw coefficient sum: agreeing rounded values give equal hashes. -/
theorem C3_signature_rounding :
    (∀ (s₁ s₂ : Stage) (pre : String) (eg nt : Bool),
      s₁.typeName = s₂.typeName →
      gainToken s₁.stage_gain = gainToken s₂.stage_gain →
      s₁.decimation_factor = s₂.decimation_factor →
      s₁.pz_transfer_function_type = s₂.pz_transfer_function_type →
      s₁.poles.map roundPair = s₂.poles.map roundPair →
      s₁.zeros.map roundPair = s₂.zeros.map roundPair →
      s₁.symmetry = s₂.symmetry →
      (_get_fir_coefficients s₁).map (List.map (fun c => round_to_sig_figs c))
        = (_get_fir_coefficients s₂).map
            (List.map (fun c => round_to_sig_figs c)) →
      _hash_stage s₁ pre eg nt = _hash_stage s₂ pre eg nt)
    ∧ (∀ (cs₁ cs₂ : List ℚ) (pre : String),
        cs₁.map (fun c => round_to_sig_figs c)
          = cs₂.map (fun c => round_to_sig_figs c) →
        round_to_sig_figs cs₁.sum = round_to_sig_figs cs₂.sum →
        _hash_fir_fingerprint cs₁ pre = _hash_fir_fingerprint cs₂ pre) := by
  constructor
  · intro s₁ s₂ pre eg nt h1 h2 h3 h4 h5 h6 h7 h8
    have hpe : s₁.poles.isEmpty = s₂.poles.isEmpty :=
      isEmpty_congr (by simpa using congrArg List.length h5)
    have hze : s₁.zeros.isEmpty = s₂.zeros.isEmpty :=
      isEmpty_congr (by simpa using congrArg List.length h6)
    have hpz : pzToken ":p=" s₁.poles = pzToken ":p=" s₂.poles := by
      unfold pzToken
      rw [h5]
    have hzz : pzToken ":z=" s₁.zeros = pzToken ":z=" s₂.zeros := by
      unfold pzToken
      rw [h6]
    have hco : (match _get_fir_coefficients s₁ with
          | some cs => coeffToken cs
          | none => "")
        = (match _get_fir_coefficients s₂ with
          | some cs => coeffToken cs
          | none => "") := by
      cases hc1 : _get_fir_coefficients s₁ with
      | none =>
        cases hc2 : _get_fir_coefficients s₂ with
        | none => rfl
        | some cs₂ =>
          rw [hc1, hc2] at h8
          exact absurd h8 (by simp)
      | some cs₁ =>
        cases hc2 : _get_fir_coefficients s₂ with
        | none =>
          rw [hc1, hc2] at h8
          exact absurd h8 (by simp)
        | some cs₂ =>
          rw [hc1, hc2] at h8
          simp only [Option.map_some', Option.some.injEq] at h8
          exact coeffToken_congr h8
    simp only [_hash_stage]
    rw [h1, h2, h3, h4, hpz, hzz, hpe, hze, h7, hco]
  · intro cs₁ cs₂ pre hmap hsum
    have hl : cs₁.length = cs₂.length := by
      simpa using congrArg List.length hmap
    have hc : ∀ i, round_to_sig_figs (cs₁.getD i 0)
        = round_to_sig_figs (cs₂.getD i 0) := by
      intro i
      have hz0 : round_to_sig_figs (0 : ℚ) = 0 := by
        simp [round_to_sig_figs]
      calc round_to_sig_figs (cs₁.getD i 0)
          = (cs₁.map (fun c => round_to_sig_figs c)).getD i
              (round_to_sig_figs 0) :=
            (getD_map (fun c => round_to_sig_figs c) cs₁ i 0).symm
        _ = (cs₂.map (fun c => round_to_sig_figs c)).getD i
              (round_to_sig_figs 0) := by rw [hmap]
        _ = round_to_sig_figs (cs₂.getD i 0) :=
            getD_map (fun c => round_to_sig_figs c) cs₂ i 0
    have hmc : ∀ L : List ℕ,
        L.map (fun i => ":c" ++ toString i ++ "="
          ++ toString (round_to_sig_figs (cs₁.getD i 0)))
        = L.map (fun i => ":c" ++ toString i ++ "="
          ++ toString (round_to_sig_figs (cs₂.getD i 0))) := by
      intro L
      exact List.map_congr_left (fun i _ => by rw [hc i])
    simp only [_hash_fir_fingerprint]
    rw [hl, hsum, hmc, hmc]

/-- C3 counterexample: the claim fails in both directions.  The gains 0.001
and 0.002 differ already in their first significant figure (the floors of
`x·10^3` differ) yet hash identically, because gains are rounded to two
decimal places; the coefficients 1.000049 and 1.0000551 agree in their first
five significant figures (equal floors of `x·10^4`) yet hash differently,
because 5-significant-figure rounding crosses a boundary between them. -/
theorem C3_counterexample :
    (ratFloor ((1/1000 : ℚ) * 10 ^ 3) ≠ ratFloor ((2/1000 : ℚ) * 10 ^ 3)
      ∧ _hash_stage testGainStageA "" = _hash_stage testGainStageB "")
    ∧ (ratFloor ((1000049/1000000 : ℚ) * 10 ^ 4)
         = ratFloor ((10000551/10000000 : ℚ) * 10 ^ 4)
      ∧ _hash_stage testCoeffStageA "" ≠ _hash_stage testCoeffStageB "") := by
  with_unfolding_all decide

/-- Witness for C3 at two stages whose gains 100.001 and 100.0011 share the
same two-decimal rounding. -/
theorem C3_witness :
    gainToken testRoundStageA.stage_gain = gainToken testRoundStageB.stage_gain
    ∧ _hash_stage testRoundStageA "" = _hash_stage testRoundStageB "" := by
  have hg : gainToken testRoundStageA.stage_gain
      = gainToken testRoundStageB.stage_gain := by
    with_unfolding_all rfl
  refine ⟨hg, ?_⟩
  exact C3_signature_rounding.1 testRoundStageA testRoundStageB "" false false
    rfl hg rfl rfl rfl rfl rfl rfl

/-- C4 (amended): `_find_preamp_gain` returns the product of the
volt-to-volt stage gains at indices `1 .. a-1` (missing/zero gains counted
as 1), none when no volt-to-volt stage exists there; the disambiguation
heuristic instead multiplies the absolute values of ALL truthy stage gains
in that range, irrespective of units; the two coincide in magnitude
whenever every truthy-gain stage before the ADC is volt-to-volt (they can
also coincide without that condition, e.g. when a non-volt-to-volt stage
carries gain 1). -/
theorem C4_preamp_gain :
    (∀ (r : List Stage) (a : ℕ),
      _find_preamp_gain r (some a)
        = if a ≤ 1 then none
          else if hasVtoVBefore r a then some (vtovGains r a).prod else none)
    ∧ (∀ (r : List Stage) (a : ℕ),
        disambUserPreamp r a = (absTruthyGains r a).prod)
    ∧ (∀ (r : List Stage) (a : ℕ),
        (∀ st ∈ (r.take a).drop 1,
          truthyQ st.stage_gain = true → isVtoV st = true) →
        disambUserPreamp r a = |(vtovGains r a).prod|) := by
  refine ⟨?_, ?_, ?_⟩
  · intro r a
    by_cases ha : a ≤ 1
    · simp [_find_preamp_gain, ha]
    · simp only [_find_preamp_gain, ha, if_false]
      rw [foldl_preamp ((r.take a).drop 1) 1 false]
      simp [hasVtoVBefore, vtovGains]
  · intro r a
    unfold disambUserPreamp absTruthyGains
    simpa using foldl_disamb ((r.take a).drop 1) 1
  · intro r a h
    unfold disambUserPreamp vtovGains
    rw [foldl_disamb ((r.take a).drop 1) 1, one_mul]
    exact absTruthy_eq_abs_vtov ((r.take a).drop 1) h

/-- C4 counterexample: in `testMixedResponse` (volt-to-volt gain 2 and a
non-volt-to-volt gain 3 before the ADC at index 3), `_find_preamp_gain`
yields 2 but the disambiguation pass uses 6 = 2·3 ≠ |2|, and with candidate
E (stored preamp 6) the heuristic returns a perfect match that the claimed
volt-to-volt magnitude 2 would have rejected. -/
theorem C4_counterexample :
    _find_preamp_gain testMixedResponse (some 3) = some 2
    ∧ disambUserPreamp testMixedResponse 3 = 6
    ∧ (6 : ℚ) ≠ |(2 : ℚ)|
    ∧ _disambiguate_by_gain_calculation testMixedResponse [candE] none (some 3)
        = some (candE, 1)
    ∧ primaryMatches (_compute_total_digital_gain testMixedResponse 3)
        |(2 : ℚ)| [candE] = [] := by
  with_unfolding_all decide

/-- Witness for C4 at the main test response, whose single pre-ADC
truthy-gain stage is volt-to-volt. -/
theorem C4_witness :
    disambUserPreamp testResponse 2 = |(vtovGains testResponse 2).prod| := by
  exact C4_preamp_gain.2.2 testResponse 2 (by with_unfolding_all decide)

/-- C5 (amended): every candidate accepted by the primary disambiguation
pass carries confidence `max(0.5, 1.0 − 2·relDiff)` for a nonnegative
relative difference below the 0.15 tolerance; the confidence is
monotonically non-increasing in the relative difference and lies within
`[0.5, 1.0]` — the upper endpoint 1.0 included, attained at relDiff 0. -/
theorem C5_primary_confidence :
    (∀ (user_adc user_preamp : ℚ) (candidates : List InstrumentInfo)
       (c : InstrumentInfo) (conf : ℚ),
      (c, conf) ∈ primaryMatches user_adc user_preamp candidates →
      conf = primaryConf (primaryRelDiff user_adc user_preamp c)
      ∧ 0 ≤ primaryRelDiff user_adc user_preamp c
      ∧ primaryRelDiff user_adc user_preamp c < 3/20
      ∧ 1/2 ≤ conf ∧ conf ≤ 1)
    ∧ (∀ d₁ d₂ : ℚ, d₁ ≤ d₂ → primaryConf d₂ ≤ primaryConf d₁) := by
  constructor
  · intro ua up cands c conf h
    exact mem_primaryMatches_spec h
  · intro d₁ d₂ h
    unfold primaryConf
    exact max_le_max le_rfl (by linarith)

/-- C5 counterexample: with exactly matching gain ratios the primary pass
assigns confidence exactly 1.0, which is outside the claimed interval
`[0.5, 1.0)`. -/
theorem C5_counterexample :
    (candA, (1 : ℚ)) ∈ primaryMatches 100 2 [candA] ∧ ¬((1 : ℚ) < 1) := by
  constructor
  · with_unfolding_all decide
  · norm_num

/-- Witness for C5: the candidate accepted at relative difference 0.1 gets
confidence 0.8, with its bounds. -/
theorem C5_witness :
    (candA, (4/5 : ℚ)) ∈ primaryMatches 110 2 [candA]
    ∧ (4/5 : ℚ) = primaryConf (primaryRelDiff 110 2 candA)
    ∧ 1/2 ≤ (4/5 : ℚ) ∧ (4/5 : ℚ) ≤ 1 := by
  have hm : (candA, (4/5 : ℚ)) ∈ primaryMatches 110 2 [candA] := by
    with_unfolding_all decide
  have hs := C5_primary_confidence.1 110 2 [candA] candA (4/5) hm
  exact ⟨hm, hs.1, hs.2.2.2.1, hs.2.2.2.2⟩

/-- C2 (amended): for a response without an ADC stage, `detect_instrument`
performs no datalogger lookup at all: the family signature resolves to none
and the datalogger, its candidate list and its confidence remain unset/0
regardless of the index contents.  The stages-after-first fallback signature
is computed only at index-build time and is never consulted at detection
time. -/
theorem C2_no_adc_no_lookup (d : IndexData) (r : List Stage)
    (h : _find_adc_stage_index r = none) :
    _compute_datalogger_signature_from_response r = none
    ∧ (detectCore d r).datalogger = none
    ∧ (detectCore d r).datalogger_candidates = none
    ∧ (detectCore d r).datalogger_confidence = 0 := by
  have hfam : _compute_datalogger_signature_from_response r = none := by
    unfold _compute_datalogger_signature_from_response
    split
    · rfl
    · rw [h]
  have hex : exactLookup d r = none := by
    unfold exactLookup
    rw [h]
  have hspec := sensorStep_spec d r
  refine ⟨hfam, ?_, ?_, ?_⟩
  · simp only [detectCore, hex, familyStep, hfam]
    exact hspec.2.2.1
  · simp only [detectCore, hex, familyStep, hfam]
    exact hspec.2.2.2.1
  · simp only [detectCore, hex, familyStep, hfam]
    exact hspec.2.2.2.2

/-- C2 counterexample: `testNoAdcResponse` has stages but no ADC stage, and
its stages-after-first fallback signature collides with two entries in the
index's family map; yet `detect_instrument` populates no datalogger
candidates at all (the claim asserts all colliding candidates are
populated). -/
theorem C2_counterexample :
    _find_adc_stage_index testNoAdcResponse = none
    ∧ _compute_datalogger_signature_stages_1_plus testNoAdcResponse
        = some testFallbackSig
    ∧ dictLookup testFallbackIndex.dataloggers_family testFallbackSig
        = some [candA, candB]
    ∧ (detectCore testFallbackIndex testNoAdcResponse).datalogger_candidates
        = none
    ∧ (detectCore testFallbackIndex testNoAdcResponse).datalogger = none := by
  with_unfolding_all decide

/-- Witness for C2 at the concrete ADC-less response and fallback index. -/
theorem C2_witness :
    _find_adc_stage_index testNoAdcResponse = none
    ∧ _compute_datalogger_signature_from_response testNoAdcResponse = none
    ∧ (detectCore testFallbackIndex testNoAdcResponse).datalogger_confidence
        = 0 := by
  have h := C2_no_adc_no_lookup testFallbackIndex testNoAdcResponse
    (by with_unfolding_all decide)
  exact ⟨by with_unfolding_all decide, h.1, h.2.2.2⟩

/-- C6: when the exact datalogger signature (computed with the response's
own measured preamp gain) hits the exact-signature map, `detect_instrument`
sets the datalogger fields by the one-candidate/else-first-with-0 rule and
returns immediately: the result is independent of the family-signature map,
so no family lookup or disambiguation takes place. -/
theorem C6_exact_short_circuit (d : IndexData) (r : List Stage) (a : ℕ)
    (sig : String) (cs : List InstrumentInfo)
    (ha : _find_adc_stage_index r = some a)
    (hs : _compute_dl_sig_with_user_preamp r a (_find_preamp_gain r (some a))
        = some sig)
    (hc : dictLookup d.dataloggers sig = some cs) :
    detectCore d r = dlExactApply cs (sensorStep d r)
    ∧ (detectCore d r).datalogger = cs.head?
    ∧ (detectCore d r).datalogger_candidates = some cs
    ∧ (detectCore d r).datalogger_confidence
        = (if cs.length = 1 then (1 : ℚ) else 0)
    ∧ ∀ fam, detectCore { d with dataloggers_family := fam } r
        = detectCore d r := by
  have hex : exactLookup d r = some cs := by
    simp only [exactLookup, ha, hs, hc]
  have hd : detectCore d r = dlExactApply cs (sensorStep d r) := by
    simp only [detectCore, hex]
  refine ⟨hd, ?_, ?_, ?_, ?_⟩
  · rw [hd]
    rfl
  · rw [hd]
    rfl
  · rw [hd]
    rfl
  · intro fam
    have hex2 : exactLookup { d with dataloggers_family := fam } r
        = some cs := by
      simp only [exactLookup, ha, hs]
      exact hc
    have hsen : sensorStep { d with dataloggers_family := fam } r
        = sensorStep d r := rfl
    simp only [detectCore, hex, hex2, hsen]

/-- Witness for C6 at the concrete test response and exact-signature
index — including independence from a populated family map. -/
theorem C6_witness :
    _find_adc_stage_index testResponse = some 2
    ∧ _compute_dl_sig_with_user_preamp testResponse 2
        (_find_preamp_gain testResponse (some 2)) = some testExactSig
    ∧ detectCore testExactIndex testResponse
        = dlExactApply [candD] (sensorStep testExactIndex testResponse)
    ∧ detectCore { testExactIndex with
          dataloggers_family := [(testFamilySig, [candA, candB])] } testResponse
      = detectCore testExactIndex testResponse := by
  have ha : _find_adc_stage_index testResponse = some 2 := by
    with_unfolding_all decide
  have hs : _compute_dl_sig_with_user_preamp testResponse 2
      (_find_preamp_gain testResponse (some 2)) = some testExactSig := by
    with_unfolding_all rfl
  have hc : dictLookup testExactIndex.dataloggers testExactSig
      = some [candD] := by
    with_unfolding_all decide
  have h := C6_exact_short_circuit testExactIndex testResponse 2 testExactSig
    [candD] ha hs hc
  exact ⟨ha, hs, h.1, h.2.2.2.2 _⟩

/-- C1 (amended): sensor confidence is 1.0 exactly when the sensor lookup
resolved to a single candidate, and is otherwise 0.0; datalogger confidence
is 1.0 whenever its candidate list resolved to a single entry, and is
otherwise 0.0 or a disambiguation value in [0.5, 1.0] — the upper endpoint
1.0 included, so a confidence of 1.0 does not imply a unique candidate. -/
theorem C1_confidence_rule (d : IndexData) (r : List Stage) :
    ((detectCore d r).sensor_confidence = 1 ↔
      ∃ cs, (detectCore d r).sensor_candidates = some cs ∧ cs.length = 1)
    ∧ ((detectCore d r).sensor_confidence = 0
       ∨ (detectCore d r).sensor_confidence = 1)
    ∧ ((∃ cs, (detectCore d r).datalogger_candidates = some cs
          ∧ cs.length = 1)
       → (detectCore d r).datalogger_confidence = 1)
    ∧ ((detectCore d r).datalogger_confidence = 0
       ∨ (1/2 ≤ (detectCore d r).datalogger_confidence
          ∧ (detectCore d r).datalogger_confidence ≤ 1)) := by
  have hspec := sensorStep_spec d r
  cases hex : exactLookup d r with
  | some cs =>
    have hd : detectCore d r = dlExactApply cs (sensorStep d r) := by
      simp only [detectCore, hex]
    rw [hd]
    refine ⟨hspec.1, hspec.2.1, ?_, ?_⟩
    · rintro ⟨cs2, hcs2, hl2⟩
      have hcc : some cs = some cs2 := hcs2
      cases hcc
      show (if cs.length = 1 then (1 : ℚ) else 0) = 1
      rw [if_pos hl2]
    · by_cases hl : cs.length = 1
      · refine Or.inr ⟨?_, ?_⟩
        · show (1 : ℚ)/2 ≤ if cs.length = 1 then (1 : ℚ) else 0
          rw [if_pos hl]
          norm_num
        · show (if cs.length = 1 then (1 : ℚ) else 0) ≤ 1
          rw [if_pos hl]
      · refine Or.inl ?_
        show (if cs.length = 1 then (1 : ℚ) else 0) = 0
        rw [if_neg hl]
  | none =>
    have hd : detectCore d r = familyStep d r (sensorStep d r) := by
      simp only [detectCore, hex]
    cases hsig : _compute_datalogger_signature_from_response r with
    | none =>
      have hf : familyStep d r (sensorStep d r) = sensorStep d r := by
        unfold familyStep
        rw [hsig]
      rw [hd, hf]
      refine ⟨hspec.1, hspec.2.1, ?_, Or.inl hspec.2.2.2.2⟩
      rintro ⟨cs', hc, _⟩
      rw [hspec.2.2.2.1] at hc
      exact Option.noConfusion hc
    | some sig =>
      cases hlk : dictLookup d.dataloggers_family sig with
      | none =>
        have hf : familyStep d r (sensorStep d r) = sensorStep d r := by
          simp only [familyStep, hsig, hlk]
        rw [hd, hf]
        refine ⟨hspec.1, hspec.2.1, ?_, Or.inl hspec.2.2.2.2⟩
        rintro ⟨cs', hc, _⟩
        rw [hspec.2.2.2.1] at hc
        exact Option.noConfusion hc
      | some cs =>
        by_cases hl1 : cs.length = 1
        · have hf : familyStep d r (sensorStep d r)
              = { sensorStep d r with
                  datalogger_candidates := some cs,
                  datalogger := cs.head?, datalogger_confidence := 1 } := by
            simp only [familyStep, hsig, hlk, hl1, if_true]
          rw [hd, hf]
          refine ⟨hspec.1, hspec.2.1, fun _ => rfl, Or.inr ⟨?_, ?_⟩⟩
          · show (1 : ℚ)/2 ≤ 1
            norm_num
          · show (1 : ℚ) ≤ 1
            norm_num
        · by_cases hl2 : 1 < cs.length
          · cases hdis : _disambiguate_by_gain_calculation r cs
                (sensorStep d r).sensor (_find_adc_stage_index r) with
            | some m =>
              have hf : familyStep d r (sensorStep d r)
                  = { sensorStep d r with
                      datalogger_candidates := some cs,
                      datalogger := some m.1,
                      datalogger_confidence := m.2 } := by
                simp only [familyStep, hsig, hlk, hl1, if_false, hl2,
                  if_true, hdis]
              rw [hd, hf]
              refine ⟨hspec.1, hspec.2.1, ?_,
                Or.inr (disamb_conf_bounds hdis)⟩
              rintro ⟨cs', hc, hl'⟩
              have hcc : some cs = some cs' := hc
              cases hcc
              exact absurd hl' hl1
            | none =>
              have hf : familyStep d r (sensorStep d r)
                  = { sensorStep d r with
                      datalogger_candidates := some cs,
                      datalogger := cs.head?,
                      datalogger_confidence := 0 } := by
                simp only [familyStep, hsig, hlk, hl1, if_false, hl2,
                  if_true, hdis]
              rw [hd, hf]
              refine ⟨hspec.1, hspec.2.1, ?_, Or.inl rfl⟩
              rintro ⟨cs', hc, hl'⟩
              have hcc : some cs = some cs' := hc
              cases hcc
              exact absurd hl' hl1
          · have hf : familyStep d r (sensorStep d r)
                = { sensorStep d r with
                    datalogger_candidates := some cs } := by
              simp only [familyStep, hsig, hlk, hl1, hl2, if_false]
            rw [hd, hf]
            refine ⟨hspec.1, hspec.2.1, ?_, Or.inl hspec.2.2.2.2⟩
            rintro ⟨cs', hc, hl'⟩
            have hcc : some cs = some cs' := hc
            cases hcc
            exact absurd hl' hl1

/-- C1 counterexample: on the concrete family-collision index, detection
reaches datalogger confidence exactly 1.0 via the disambiguation heuristic
(perfect gain-ratio agreement) while the candidate list holds two entries,
refuting "confidence 1.0 only for exactly one candidate". -/
theorem C1_counterexample :
    (detectCore testFamilyIndex testResponse).datalogger_confidence = 1
    ∧ (detectCore testFamilyIndex testResponse).datalogger_candidates
        = some [candA, candB]
    ∧ ([candA, candB] : List InstrumentInfo).length ≠ 1 := by
  with_unfolding_all decide

/-- Witness for C1 at the concrete family-collision index. -/
theorem C1_witness :
    ((detectCore testFamilyIndex testResponse).sensor_confidence = 0
     ∨ (detectCore testFamilyIndex testResponse).sensor_confidence = 1)
    ∧ ((detectCore testFamilyIndex testResponse).datalogger_confidence = 0
       ∨ (1/2 ≤ (detectCore testFamilyIndex testResponse).datalogger_confidence
          ∧ (detectCore testFamilyIndex testResponse).datalogger_confidence
              ≤ 1)) := by
  have h := C1_confidence_rule testFamilyIndex testResponse
  exact ⟨h.2.1, h.2.2.2⟩

/-- `InstrumentInfo(**asdict(i))` reconstructs `i` exactly. -/
theorem instrumentInfo_roundtrip (i : InstrumentInfo) :
    instrumentInfoOfDict (asdict i) = some i := by
  obtain ⟨m, mo, de, p, sg, ag, fn, vp⟩ := i
  cases sg <;> cases ag <;> cases fn <;> cases vp <;> rfl

/-- Serializing then decoding a record list is the identity. -/
theorem loadList_save (l : List InstrumentInfo) :
    loadList (l.map asdict) = some l := by
  induction l with
  | nil => rfl
  | cons i t ih =>
    simp only [List.map_cons, loadList, instrumentInfo_roundtrip, ih]

/-- Serializing then decoding a signature map is the identity. -/
theorem loadMap_save (m : List (String × List InstrumentInfo)) :
    loadMap (saveMap m) = some m := by
  induction m with
  | nil => rfl
  | cons p t ih =>
    obtain ⟨s, l⟩ := p
    simp only [saveMap, List.map_cons] at ih ⊢
    simp only [loadMap, loadList_save l, ih]

/-- C8: round-trip persistence — loading a saved index reconstructs exactly
the in-memory index (identical maps, identical candidate-list ordering), so
querying through a load-on-demand `detect_instrument` yields a
`DetectionResult` identical to querying the directly built in-memory
index, for every response. -/
theorem C8_save_load_roundtrip (nrl_hash : String) (d : IndexData)
    (r : List Stage) :
    load_index (save_index nrl_hash d) = some d
    ∧ detect_instrument none (load_index (save_index nrl_hash d)) r
        = detect_instrument (some d) none r := by
  have hload : load_index (save_index nrl_hash d) = some d := by
    obtain ⟨se, dl, fa⟩ := d
    simp only [load_index, save_index, loadMap_save, Option.bind_eq_bind,
      Option.some_bind]
    rfl
  refine ⟨hload, ?_⟩
  rw [hload]
  rfl

/-- Witness for C8 at the concrete family-collision index and test
response. -/
theorem C8_witness :
    load_index (save_index "hash" testFamilyIndex) = some testFamilyIndex
    ∧ detect_instrument none (load_index (save_index "hash" testFamilyIndex))
        testResponse
      = detect_instrument (some testFamilyIndex) none testResponse :=
  C8_save_load_roundtrip "hash" testFamilyIndex testResponse

end SRM
